import Mathlib

/-!
Verification of the flight-data bulk-import pipeline
(`cli-python/import_flights.py`) against its specification.

The Python source is shallowly embedded: pure helper functions
(`present`, `to_float`, `to_integer`, `to_boolean`, the filename/timestamp
index routing, the row transformer) become Lean functions over `String` /
`List Char`; the stateful parts (per-index buffering and flushing,
`_ensure_index`, `_flush`) become explicit state-passing functions whose
interactions with the document store are driven by explicit response values.

Modelling notes:
* Python `str` is modelled by Lean `String`; `str.strip`/`lower`/`upper`
  act on ASCII (the data processed here is ASCII CSV).
* Python `float(...)` parsing is modelled exactly on the grammar CPython
  accepts (sign, digits with underscores, fraction, exponent, inf/infinity/
  nan, case-insensitive), but with exact rational arithmetic instead of IEEE
  rounding; only sign and comparison with zero of parsed values are used by
  the program logic verified here.
* Python exceptions are modelled with `Except`: `round()` applied to an
  infinite or NaN float raises in `to_integer`, so the row transformer
  returns `Except Unit Doc`.
* A Python `dict` built by straight-line assignments to distinct literal
  keys is modelled as an insertion-ordered association list.
-/

namespace ImportFlights

/-- ASCII model of the whitespace characters stripped by Python `str.strip()`. -/
def isPyWs (c : Char) : Bool :=
  c = ' ' || c = '\t' || c = '\n' || c = '\r' || c = '\x0b' || c = '\x0c'

/-- Strip leading and trailing Python whitespace from a character list. -/
def stripWs (l : List Char) : List Char :=
  ((l.dropWhile isPyWs).reverse.dropWhile isPyWs).reverse

/-- Model of Python `str.strip()`. -/
def pyStrip (s : String) : String :=
  ⟨stripWs s.data⟩

/-- Model of Python `str.lower()` (ASCII). -/
def pyLower (s : String) : String :=
  ⟨s.data.map Char.toLower⟩

/-- Model of Python `str.upper()` (ASCII). -/
def pyUpper (s : String) : String :=
  ⟨s.data.map Char.toUpper⟩

/-- Model of the `present` helper: `None` stays `None`, otherwise the string
is stripped and an empty result becomes `None`. -/
def present (value : Option String) : Option String :=
  match value with
  | none => none
  | some s =>
    let text := pyStrip s
    if text = "" then none else some text

/-- Model of Python `a or b` on `present` outputs (an `Option String` whose
`some` payload is nonempty, so truthiness coincides with `isSome`). -/
def pyOr (a b : Option String) : Option String :=
  match a with
  | some x => some x
  | none => b

/-- Python truthiness of an optional string (`None` and `""` are falsy). -/
def truthy (o : Option String) : Bool :=
  match o with
  | none => false
  | some s => s ≠ ""

/-! ### Model of `float(...)` parsing -/

/-- Value categories a Python `float(...)` call can produce, with finite
values kept as exact rationals. -/
inductive PyFloatVal where
  | finite (q : ℚ)
  | inf
  | negInf
  | nan
  deriving DecidableEq, Repr

/-- Consume a maximal run of digits possibly separated by single underscores
(the lexical rule of Python numeric literals); returns the digits (without
underscores) and the unconsumed remainder.  Fuel-indexed so the definition
reduces by kernel computation; each step consumes at least one character. -/
def udigitsGo : ℕ → List Char → (List Char × List Char)
  | 0, l => ([], l)
  | _ + 1, [] => ([], [])
  | fuel + 1, c :: rest =>
    if c.isDigit then
      let (ds, r) := udigitsGo fuel rest
      (c :: ds, r)
    else if c = '_' then
      match rest with
      | d :: rest2 =>
        if d.isDigit then
          let (ds, r) := udigitsGo fuel rest2
          (d :: ds, r)
        else ([], c :: rest)
      | [] => ([], [c])
    else ([], c :: rest)

/-- Parse a nonempty run of underscore-separated digits; `none` when the
input does not start with a digit. -/
def parseUDigits (l : List Char) : Option (List Char × List Char) :=
  match l with
  | c :: _ => if c.isDigit then some (udigitsGo l.length l) else none
  | [] => none

/-- Numeric value of a digit list. -/
def digitsToNat (l : List Char) : ℕ :=
  l.foldl (fun acc c => 10 * acc + (c.toNat - '0'.toNat)) 0

/-- Rational value of a parsed decimal literal: sign, integer digits,
fraction digits, exponent (`mant * 10 ^ (expVal - |frac|)` as an exact
rational, written with `mkRat` so it reduces by kernel computation). -/
def decimalValue (pos : Bool) (intDs fracDs : List Char) (expVal : ℤ) : ℚ :=
  let mant : ℤ := (if pos then 1 else -1) * (digitsToNat (intDs ++ fracDs) : ℤ)
  let e : ℤ := expVal - (fracDs.length : ℤ)
  if 0 ≤ e then mkRat (mant * 10 ^ e.toNat) 1 else mkRat mant (10 ^ (-e).toNat)

/-- Model of CPython `float(str)` on a character list: strip whitespace,
optional sign, then `inf`/`infinity`/`nan` (case-insensitive) or a decimal
literal with optional underscores, fraction and exponent.  `none` models the
`ValueError` raised on invalid input. -/
def pyFloatOfChars (l0 : List Char) : Option PyFloatVal :=
  let l1 := (stripWs l0).map Char.toLower
  let signAndRest : Bool × List Char :=
    match l1 with
    | '+' :: r => (true, r)
    | '-' :: r => (false, r)
    | _ => (true, l1)
  let pos := signAndRest.1
  let l := signAndRest.2
  if l = "inf".data || l = "infinity".data then
    some (if pos then .inf else .negInf)
  else if l = "nan".data then
    some .nan
  else
    let intParse : List Char × List Char :=
      match parseUDigits l with
      | some (ds, r) => (ds, r)
      | none => ([], l)
    let intDs := intParse.1
    let fracParse : List Char × List Char :=
      match intParse.2 with
      | '.' :: r =>
        match parseUDigits r with
        | some (ds, r2) => (ds, r2)
        | none => ([], r)
      | _ => ([], intParse.2)
    let fracDs := fracParse.1
    if intDs = [] && fracDs = [] then none
    else
      match fracParse.2 with
      | 'e' :: r =>
        let esignAndRest : Bool × List Char :=
          match r with
          | '+' :: rr => (true, rr)
          | '-' :: rr => (false, rr)
          | _ => (true, r)
        match parseUDigits esignAndRest.2 with
        | some (ds, r3) =>
          if r3 = [] then
            some (.finite (decimalValue pos intDs fracDs
              ((if esignAndRest.1 then 1 else -1) * (digitsToNat ds : ℤ))))
          else none
        | none => none
      | [] => some (.finite (decimalValue pos intDs fracDs 0))
      | _ => none

/-- Model of `float(str)` on a `String`. -/
def pyFloatOfString (s : String) : Option PyFloatVal :=
  pyFloatOfChars s.data

/-- Model of the Python comparison `numeric > 0` on a float value
(`nan > 0` is `False`). -/
def gtZero : PyFloatVal → Bool
  | .finite q => decide (0 < q)
  | .inf => true
  | .negInf => false
  | .nan => false

/-- Model of Python `round()` on a finite float: round half to even. -/
def pyRound (q : ℚ) : ℤ :=
  let f := ⌊q⌋
  let r := q - (f : ℚ)
  if r < 1/2 then f
  else if 1/2 < r then f + 1
  else if f % 2 = 0 then f else f + 1

/-- Model of the `to_float` helper: `present` then `float(...)`, with a
parse failure returning `None`. -/
def to_float (value : Option String) : Option PyFloatVal :=
  match present value with
  | none => none
  | some text => pyFloatOfString text

/-- Whether `to_integer` would raise: `round()` applied to an infinite or
NaN float raises `OverflowError`/`ValueError`, uncaught in the source. -/
def to_integerRaises (value : Option String) : Bool :=
  match to_float value with
  | some .inf => true
  | some .negInf => true
  | some .nan => true
  | _ => false

/-- Value of `to_integer` in the non-raising cases. -/
def to_integerVal (value : Option String) : Option ℤ :=
  match to_float value with
  | some (.finite q) => some (pyRound q)
  | _ => none

/-- Model of the `to_integer` helper (`int(round(to_float(value)))`), with
the raising cases surfaced as `Except.error`. -/
def to_integer (value : Option String) : Except Unit (Option ℤ) :=
  if to_integerRaises value then .error () else .ok (to_integerVal value)

/-- Model of the `to_boolean` helper: truthy/falsy word sets after
lowercasing, else fall back to `float(text) > 0`; unparsable gives `None`. -/
def to_boolean (value : Option String) : Option Bool :=
  match present value with
  | none => none
  | some text =>
    let lowered := pyLower text
    if lowered = "true" || lowered = "t" || lowered = "yes" || lowered = "y" then
      some true
    else if lowered = "false" || lowered = "f" || lowered = "no" || lowered = "n" then
      some false
    else
      match pyFloatOfString text with
      | none => none
      | some fv => some (gtZero fv)

/-! ### Lookup tables -/

/-- Model of `AirportLookup.lookup_coordinates`: falsy code gives `None`,
otherwise the table (an abstract map from upper-cased IATA code to the
rendered `"lat,lon"` string) is consulted. -/
def lookup_coordinates (airports : String → Option String) (iataCode : Option String) :
    Option String :=
  match iataCode with
  | none => none
  | some c => if c = "" then none else airports (pyUpper c)

/-- Model of `CancellationLookup.lookup_reason`: falsy code gives `None`,
otherwise the table keyed by upper-cased code is consulted. -/
def lookup_reason (cancellations : String → Option String) (code : Option String) :
    Option String :=
  match code with
  | none => none
  | some c => if c = "" then none else cancellations (pyUpper c)

/-! ### Row transformation -/

/-- Python values stored in the transformed document dict; `pyNone` models a
field explicitly assigned `None`. -/
inductive PyVal where
  | pyNone
  | pyStr (s : String)
  | pyInt (n : ℤ)
  | pyBool (b : Bool)
  deriving DecidableEq, Repr

/-- Wrap an optional value, turning absence into an explicit `None`
assignment (mirroring `doc["X"] = maybe_none_helper(...)`). -/
def optVal (f : α → PyVal) : Option α → PyVal
  | some a => f a
  | none => .pyNone

/-- A CSV row: lookup from column name to raw cell value (`row.get`). -/
abbrev Row := String → Option String

/-- Raw document as built by `_transform_row`: insertion-ordered association
list whose values may be explicit `pyNone`. -/
abbrev RawDoc := List (String × PyVal)

/-- Whether `_transform_row` raises, i.e. some numeric field coerces to an
infinite or NaN float so that `round()` raises (uncaught in the source). -/
def transformRaises (row : Row) : Bool :=
  to_integerRaises (row "CRSDepTime") || to_integerRaises (row "DepDelay") ||
  to_integerRaises (row "TaxiOut") || to_integerRaises (row "TaxiIn") ||
  to_integerRaises (row "CRSArrTime") || to_integerRaises (row "ArrDelay") ||
  to_integerRaises (row "ActualElapsedTime") || to_integerRaises (row "AirTime") ||
  to_integerRaises (row "Flights") || to_integerRaises (row "Distance") ||
  to_integerRaises (row "CarrierDelay") || to_integerRaises (row "WeatherDelay") ||
  to_integerRaises (row "NASDelay") || to_integerRaises (row "SecurityDelay") ||
  to_integerRaises (row "LateAircraftDelay")

/-- The conditional `FlightID` assignment: present exactly when all five
inputs are truthy (`present` outputs, so truthiness is `isSome`), built by
`_`-concatenation. -/
def flightIdField (timestamp ra fn origin dest : Option String) : RawDoc :=
  match timestamp, ra, fn, origin, dest with
  | some ts, some a, some f, some o, some d =>
    [("FlightID", .pyStr (ts ++ "_" ++ a ++ "_" ++ f ++ "_" ++ o ++ "_" ++ d))]
  | _, _, _, _, _ => []

/-- An `if value: doc[key] = value` conditional string assignment (used for
`CancellationReason`, `OriginLocation`, `DestLocation`). -/
def condStrField (key : String) (value : Option String) : RawDoc :=
  match value with
  | some r => if r = "" then [] else [(key, .pyStr r)]
  | none => []

/-- Document built by `_transform_row` in the non-raising case, field by
field in the source's assignment order. -/
def transformRowDoc (airports cancellations : String → Option String) (row : Row) : RawDoc :=
  let timestamp := pyOr (present (row "@timestamp")) (present (row "FlightDate"))
  let reportingAirline := present (row "Reporting_Airline")
  let flightNumber := present (row "Flight_Number_Reporting_Airline")
  let origin := present (row "Origin")
  let dest := present (row "Dest")
  let cancellationCode := present (row "CancellationCode")
  let cancellationReason := lookup_reason cancellations cancellationCode
  let originLocation := lookup_coordinates airports origin
  let destLocation := lookup_coordinates airports dest
  [("@timestamp", optVal .pyStr timestamp)]
  ++ flightIdField timestamp reportingAirline flightNumber origin dest
  ++ [("Reporting_Airline", optVal .pyStr reportingAirline),
      ("Tail_Number", optVal .pyStr (present (row "Tail_Number"))),
      ("Flight_Number", optVal .pyStr flightNumber),
      ("Origin", optVal .pyStr origin),
      ("Dest", optVal .pyStr dest),
      ("CRSDepTimeLocal", optVal .pyInt (to_integerVal (row "CRSDepTime"))),
      ("DepDelayMin", optVal .pyInt (to_integerVal (row "DepDelay"))),
      ("TaxiOutMin", optVal .pyInt (to_integerVal (row "TaxiOut"))),
      ("TaxiInMin", optVal .pyInt (to_integerVal (row "TaxiIn"))),
      ("CRSArrTimeLocal", optVal .pyInt (to_integerVal (row "CRSArrTime"))),
      ("ArrDelayMin", optVal .pyInt (to_integerVal (row "ArrDelay"))),
      ("Cancelled", optVal .pyBool (to_boolean (row "Cancelled"))),
      ("Diverted", optVal .pyBool (to_boolean (row "Diverted"))),
      ("CancellationCode", optVal .pyStr cancellationCode)]
  ++ condStrField "CancellationReason" cancellationReason
  ++ [("ActualElapsedTimeMin", optVal .pyInt (to_integerVal (row "ActualElapsedTime"))),
      ("AirTimeMin", optVal .pyInt (to_integerVal (row "AirTime"))),
      ("Flights", optVal .pyInt (to_integerVal (row "Flights"))),
      ("DistanceMiles", optVal .pyInt (to_integerVal (row "Distance"))),
      ("CarrierDelayMin", optVal .pyInt (to_integerVal (row "CarrierDelay"))),
      ("WeatherDelayMin", optVal .pyInt (to_integerVal (row "WeatherDelay"))),
      ("NASDelayMin", optVal .pyInt (to_integerVal (row "NASDelay"))),
      ("SecurityDelayMin", optVal .pyInt (to_integerVal (row "SecurityDelay"))),
      ("LateAircraftDelayMin", optVal .pyInt (to_integerVal (row "LateAircraftDelay")))]
  ++ condStrField "OriginLocation" originLocation
  ++ condStrField "DestLocation" destLocation

/-- Model of `_transform_row`: raises (`Except.error`) when any numeric
field's `round()` would raise, otherwise returns the document. -/
def transform_row (airports cancellations : String → Option String) (row : Row) :
    Except Unit RawDoc :=
  if transformRaises row then .error ()
  else .ok (transformRowDoc airports cancellations row)

/-- Model of the caller's `{key: value for key, value in doc.items() if
value is not None}` filter applied before submission. -/
def filterDoc (doc : RawDoc) : RawDoc :=
  doc.filter (fun p => p.2 ≠ .pyNone)

/-- Model of `dict.get` on a document: first entry with the given key. -/
def lookupKey (k : String) (doc : RawDoc) : Option PyVal :=
  (doc.find? (fun p => p.1 == k)).map Prod.snd

/-! ### Filename and timestamp based index routing -/

/-- One step of `re.sub(r"\.(gz|csv|zip)$", "", basename, flags=IGNORECASE)`
iterated to a fixed point; fuel bounds the recursion (each step removes at
least three characters). -/
def stripExtsAux : ℕ → List Char → List Char
  | 0, l => l
  | n + 1, l =>
    let low := l.map Char.toLower
    if ['.', 'g', 'z'].isSuffixOf low then stripExtsAux n (l.take (l.length - 3))
    else if ['.', 'c', 's', 'v'].isSuffixOf low then stripExtsAux n (l.take (l.length - 4))
    else if ['.', 'z', 'i', 'p'].isSuffixOf low then stripExtsAux n (l.take (l.length - 4))
    else l

/-- Repeatedly strip trailing `.gz` / `.csv` / `.zip` extensions
(case-insensitive) from a file basename, as `_extract_year_month_from_filename`
does before matching. -/
def stripExts (s : String) : String :=
  ⟨stripExtsAux s.data.length s.data⟩

/-- Model of `re.search(r"-(\d{4})-(\d{2})$", basename)`: the pattern is
anchored at the end and has fixed length 8, so the only candidate match is
the last eight characters. -/
def matchYM (l : List Char) : Option (List Char × List Char) :=
  match l.reverse with
  | m2 :: m1 :: h2 :: y4 :: y3 :: y2 :: y1 :: h1 :: _ =>
    if h1 = '-' && y1.isDigit && y2.isDigit && y3.isDigit && y4.isDigit &&
       h2 = '-' && m1.isDigit && m2.isDigit then
      some ([y1, y2, y3, y4], [m1, m2])
    else none
  | _ => none

/-- Model of `re.search(r"-(\d{4})$", basename)`: anchored fixed-length
pattern, so only the last five characters can match. -/
def matchYearEnd (l : List Char) : Option (List Char) :=
  match l.reverse with
  | y4 :: y3 :: y2 :: y1 :: h :: _ =>
    if h = '-' && y1.isDigit && y2.isDigit && y3.isDigit && y4.isDigit then
      some [y1, y2, y3, y4]
    else none
  | _ => none

/-- Model of `_extract_year_month_from_filename` applied to a file's
basename: strip data extensions, then try `-YYYY-MM$`, then `-YYYY$`. -/
def extract_year_month_from_filename (basename : String) : Option String × Option String :=
  let stripped := stripExts basename
  match matchYM stripped.data with
  | some (y, m) => (some ⟨y⟩, some ⟨m⟩)
  | none =>
    match matchYearEnd stripped.data with
    | some y => (some ⟨y⟩, none)
    | none => (none, none)

/-- Model of `re.match(r"^(\d{4})-(\d{2})-\d{2}", timestamp)`: the first ten
characters must be `YYYY-MM-DD`; the captured year is returned. -/
def tsYearMatch (l : List Char) : Option (List Char) :=
  match l with
  | a :: b :: c :: d :: h1 :: e :: f :: h2 :: g :: h :: _ =>
    if a.isDigit && b.isDigit && c.isDigit && d.isDigit && h1 = '-' &&
       e.isDigit && f.isDigit && h2 = '-' && g.isDigit && h.isDigit then
      some [a, b, c, d]
    else none
  | _ => none

/-- Model of `_extract_index_name`: filename year/month hints take
precedence (tested with Python truthiness), else the leading `YYYY-MM-DD`
of the timestamp, else no route. -/
def extract_index_name (base : String) (timestamp : Option String)
    (fileYear fileMonth : Option String) : Option String :=
  if truthy fileYear && truthy fileMonth then
    some (base ++ "-" ++ fileYear.getD "" ++ "-" ++ fileMonth.getD "")
  else if truthy fileYear then
    some (base ++ "-" ++ fileYear.getD "")
  else
    match timestamp with
    | none => none
    | some ts =>
      if ts = "" then none
      else
        match tsYearMatch ts.data with
        | some y => some (base ++ "-" ++ (⟨y⟩ : String))
        | none => none

/-! ### Per-file buffering and flushing (`_import_file`) -/

/-- Effective batch size: `self._batch_size = max(1, batch_size)`. -/
def effectiveBatchSize (requested : ℤ) : ℕ :=
  (max 1 requested).toNat

/-- Buffering state of one `_import_file` call: per-index buffers in
insertion order, plus the chronological log of flushed batches. -/
structure ImpState where
  bufs : List (String × List RawDoc)
  flushes : List (String × List RawDoc)
  deriving Repr

/-- The buffered documents for an index (empty when the index is absent). -/
def bufGet (bufs : List (String × List RawDoc)) (idx : String) : List RawDoc :=
  ((bufs.find? (fun p => p.1 == idx)).map Prod.snd).getD []

/-- Append a document to an index's buffer, creating the buffer at the end
of the dict on first use (`setdefault` semantics). -/
def bufAdd (bufs : List (String × List RawDoc)) (idx : String) (doc : RawDoc) :
    List (String × List RawDoc) :=
  match bufs with
  | [] => [(idx, [doc])]
  | (k, l) :: rest =>
    if k = idx then (k, l ++ [doc]) :: rest
    else (k, l) :: bufAdd rest idx doc

/-- Clear an index's buffer after a flush (`buffer["lines"].clear()`). -/
def bufClear (bufs : List (String × List RawDoc)) (idx : String) :
    List (String × List RawDoc) :=
  match bufs with
  | [] => []
  | (k, l) :: rest =>
    if k = idx then (k, []) :: rest
    else (k, l) :: bufClear rest idx

/-- The timestamp the row loop reads back from the document
(`doc.get("@timestamp")`), an `Optional[str]` by construction. -/
def docTimestamp (doc : RawDoc) : Option String :=
  match lookupKey "@timestamp" doc with
  | some (.pyStr s) => some s
  | _ => none

/-- One iteration of the row loop of `_import_file`: transform, route, drop
unroutable or empty documents, buffer, and flush a full buffer. -/
def processRow (bs : ℕ) (base : String) (fileYear fileMonth : Option String)
    (airports cancellations : String → Option String) (st : ImpState) (row : Row) :
    Except Unit ImpState :=
  match transform_row airports cancellations row with
  | .error e => .error e
  | .ok rawDoc =>
    if rawDoc.isEmpty then .ok st
    else
      match extract_index_name base (docTimestamp rawDoc) fileYear fileMonth with
      | none => .ok st
      | some idx =>
        if (filterDoc rawDoc).isEmpty then .ok st
        else if bs ≤ (bufGet (bufAdd st.bufs idx (filterDoc rawDoc)) idx).length then
          .ok ⟨bufClear (bufAdd st.bufs idx (filterDoc rawDoc)) idx,
               st.flushes ++ [(idx, bufGet (bufAdd st.bufs idx (filterDoc rawDoc)) idx)]⟩
        else
          .ok ⟨bufAdd st.bufs idx (filterDoc rawDoc), st.flushes⟩

/-- End-of-file leftover pass: flush every non-empty per-index buffer in
insertion order. -/
def finalizeState (st : ImpState) : ImpState :=
  ⟨[], st.flushes ++ st.bufs.filter (fun p => !p.2.isEmpty)⟩

/-- Model of the buffering behaviour of one `_import_file` call over its
row sequence (assuming every issued bulk request succeeds). -/
def importFileRun (bs : ℕ) (base : String) (fileYear fileMonth : Option String)
    (airports cancellations : String → Option String) (rows : List Row) :
    Except Unit ImpState :=
  (rows.foldlM (processRow bs base fileYear fileMonth airports cancellations)
    ⟨[], []⟩).map finalizeState

/-! ### `_ensure_index` -/

/-- Calls `_ensure_index` can issue against the document store. -/
inductive StoreCall where
  | existsQ (name : String)
  | deleteI (name : String)
  | createI (name : String)
  deriving DecidableEq, Repr

/-- The store's responses to one round of ensure-index calls; `Except.error`
carries the string representation of the raised exception. -/
structure EnsureResponses where
  existsR : Except String Bool
  deleteR : Except String Unit
  createR : Except String Unit

/-- Substring test (`needle in haystack` on Python strings). -/
def containsSub (needle hay : List Char) : Bool :=
  if needle.isPrefixOf hay then true
  else
    match hay with
    | [] => needle.isEmpty
    | _ :: t => containsSub needle t

/-- The creation-failure classifier of `_ensure_index`: an exception whose
lowered string contains any of the four markers is logged as a warning and
treated as success. -/
def createErrorTreatedAsSuccess (exc : String) : Bool :=
  let errorStr := (pyLower exc).data
  containsSub "resource_already_exists_exception".data errorStr ||
  containsSub "already_exists_exception".data errorStr ||
  containsSub "conflict".data errorStr ||
  containsSub "400".data errorStr

/-- Model of `_ensure_index`: skip entirely when the name was already
ensured this run; otherwise check existence, delete an existing index
(exceptions in the delete phase are swallowed), then always create, with
already-exists-style creation failures swallowed and every other creation
failure re-raised as `RuntimeError("Index creation failed: ...")`.  Returns
the updated ensured set (or the raised error) together with the trace of
store calls issued. -/
def ensure_index (resp : EnsureResponses) (ensured : List String) (name : String) :
    Except String (List String) × List StoreCall :=
  if name ∈ ensured then (.ok ensured, [])
  else
    let deletePhase : List StoreCall :=
      match resp.existsR with
      | .error _ => [.existsQ name]
      | .ok true => [.existsQ name, .deleteI name]
      | .ok false => [.existsQ name]
    let calls := deletePhase ++ [.createI name]
    let result : Except String (List String) :=
      match resp.createR with
      | .ok _ => .ok (ensured ++ [name])
      | .error exc =>
        if createErrorTreatedAsSuccess exc then .ok (ensured ++ [name])
        else .error ("Index creation failed: " ++ exc)
    (result, calls)

/-! ### `_flush` and the bulk run -/

/-- Response to one bulk request: a transport-level exception, or a parsed
body with the `errors` flag and the per-item error strings (`none` for items
without an error; extraction also drops falsy empty strings). -/
inductive BulkResp where
  | exc (msg : String)
  | ok (errors : Bool) (items : List (Option String))
  deriving Repr

/-- Item-level error extraction of `_flush` (items whose `error` value is
present and truthy). -/
def extractItemErrors (items : List (Option String)) : List String :=
  items.filterMap (fun o =>
    match o with
    | some s => if s = "" then none else some s
    | none => none)

/-- Model of `_flush` on a buffered batch: returns the logged item errors
(at most the first five) and either the document count on success or the
raised `RuntimeError` message.  `loadedRecords` is incremented by the caller
only on success. -/
def flushOutcome (docs : List RawDoc) (resp : BulkResp) :
    List String × Except String ℕ :=
  match resp with
  | .exc m => ([], .error ("Bulk request failed: " ++ m))
  | .ok errors items =>
    if errors then
      ((extractItemErrors items).take 5,
        .error "Bulk request failed: Bulk indexing reported errors; aborting")
    else ([], .ok docs.length)

/-- Model of a run of consecutive flushes: on success `loadedRecords`
accumulates the batch document counts; the first failing flush aborts the
run, leaving `loadedRecords` at the sum over the fully-flushed prior
batches and reporting the logged errors and the raised message. -/
def runBulks (loaded : ℕ) : List (List RawDoc × BulkResp) → ℕ × Option (List String × String)
  | [] => (loaded, none)
  | (docs, resp) :: rest =>
    match flushOutcome docs resp with
    | (_, .ok n) => runBulks (loaded + n) rest
    | (logged, .error m) => (loaded, some (logged, m))

/-! ### File-level control flow (`import_files` / `_import_file` / `_iter_rows`) -/

/-- Abstraction of one input file as `_import_file` sees it: not a regular
file; a zip archive with its entry name list; an archive whose opening
raises; or a readable file. -/
inductive FileKind where
  | notFile
  | zipEntries (names : List String)
  | archiveError (msg : String)
  | plainOk
  deriving Repr

/-- The zip CSV-entry search of `_iter_rows`: first entry whose lowered name
ends in `.csv`. -/
def findCsvEntry (names : List String) : Option String :=
  names.find? (fun n => ['.', 'c', 's', 'v'].isSuffixOf (pyLower n).data)

/-- Model of the file-open control flow of `_import_file`: a path that is
not a regular file is skipped with a warning (`.ok false`); a zip archive
without a CSV entry raises `RuntimeError`; an unreadable archive propagates
its exception; a readable file is imported (`.ok true`). -/
def import_file_outcome : FileKind → Except String Bool
  | .notFile => .ok false
  | .zipEntries names =>
    match findCsvEntry names with
    | some _ => .ok true
    | none => .error "No CSV entry found in archive"
  | .archiveError m => .error m
  | .plainOk => .ok true

/-- Model of the `import_files` loop: files are processed in order and any
exception from `_import_file` propagates, aborting the run; the result on
success records per file whether it was imported (`true`) or skipped
(`false`). -/
def import_files_outcome : List FileKind → Except String (List Bool)
  | [] => .ok []
  | f :: rest =>
    match import_file_outcome f with
    | .error e => .error e
    | .ok b => (import_files_outcome rest).map (fun l => b :: l)

/-! ## Helper lemmas -/

lemma present_some_of_ne {s : String} (h : pyStrip s ≠ "") :
    present (some s) = some (pyStrip s) := by
  simp only [present]
  rw [if_neg h]

lemma present_some_of_empty {s : String} (h : pyStrip s = "") :
    present (some s) = none := by
  simp only [present]
  rw [if_pos h]

lemma pyStrip_ne_of_lower {s w : String} (hw : w ≠ "") (h : pyLower (pyStrip s) = w) :
    pyStrip s ≠ "" := by
  intro he
  apply hw
  rw [he] at h
  have hl : pyLower "" = "" := rfl
  rw [hl] at h
  exact h.symm

/-! ## Claims -/

/-- C8: boolean coercion of `Cancelled`/`Diverted` maps, case-insensitively,
`true/t/yes/y` to `true` and `false/f/no/n` to `false`; any other non-empty
value is parsed as a Python float and maps to `number > 0` (with `gtZero`
spelling out that comparison); an empty or unparsable value leaves the field
absent (`none`).  In particular `"Y"` gives `true`, `"n"` gives `false`,
`"1"` gives `true`, and `""` and `"maybe"` give an absent field. -/
theorem to_boolean_spec :
    (∀ s : String,
      ((pyLower (pyStrip s) = "true" ∨ pyLower (pyStrip s) = "t" ∨
          pyLower (pyStrip s) = "yes" ∨ pyLower (pyStrip s) = "y") →
        to_boolean (some s) = some true) ∧
      ((pyLower (pyStrip s) = "false" ∨ pyLower (pyStrip s) = "f" ∨
          pyLower (pyStrip s) = "no" ∨ pyLower (pyStrip s) = "n") →
        to_boolean (some s) = some false) ∧
      (pyStrip s ≠ "" →
        ¬ (pyLower (pyStrip s) = "true" ∨ pyLower (pyStrip s) = "t" ∨
            pyLower (pyStrip s) = "yes" ∨ pyLower (pyStrip s) = "y") →
        ¬ (pyLower (pyStrip s) = "false" ∨ pyLower (pyStrip s) = "f" ∨
            pyLower (pyStrip s) = "no" ∨ pyLower (pyStrip s) = "n") →
        to_boolean (some s) = (pyFloatOfString (pyStrip s)).map gtZero) ∧
      (pyStrip s = "" → to_boolean (some s) = none)) ∧
    to_boolean (some "Y") = some true ∧
    to_boolean (some "n") = some false ∧
    to_boolean (some "1") = some true ∧
    to_boolean (some "") = none ∧
    to_boolean (some "maybe") = none := by
  refine ⟨fun s => ⟨?_, ?_, ?_, ?_⟩, by decide, by decide, by decide, by decide, by decide⟩
  · intro h
    have hne : pyStrip s ≠ "" := by
      rcases h with h | h | h | h <;> exact pyStrip_ne_of_lower (by decide) h
    rcases h with h | h | h | h <;> simp [to_boolean, present_some_of_ne hne, h]
  · intro h
    have hne : pyStrip s ≠ "" := by
      rcases h with h | h | h | h <;> exact pyStrip_ne_of_lower (by decide) h
    rcases h with h | h | h | h <;> simp [to_boolean, present_some_of_ne hne, h]
  · intro hne hnt hnf
    push_neg at hnt hnf
    obtain ⟨h1, h2, h3, h4⟩ := hnt
    obtain ⟨h5, h6, h7, h8⟩ := hnf
    simp [to_boolean, present_some_of_ne hne, h1, h2, h3, h4, h5, h6, h7, h8]
    cases pyFloatOfString (pyStrip s) <;> simp
  · intro he
    simp [to_boolean, present_some_of_empty he]

/-- C9: a creation failure whose string representation contains
(case-insensitively) `resource_already_exists_exception`,
`already_exists_exception`, `conflict`, or `400` makes `_ensure_index` log a
warning, mark the index ensured, and continue — so any bad-request (400)
failure is treated as success; every other creation exception is re-raised
as the fatal `RuntimeError("Index creation failed: ...")`. -/
theorem ensure_index_create_error_spec :
    ∀ (resp : EnsureResponses) (ensured : List String) (name exc : String),
      name ∉ ensured → resp.createR = .error exc →
      ((createErrorTreatedAsSuccess exc = true →
          (ensure_index resp ensured name).1 = .ok (ensured ++ [name])) ∧
       (createErrorTreatedAsSuccess exc = false →
          (ensure_index resp ensured name).1 =
            .error ("Index creation failed: " ++ exc)) ∧
       (createErrorTreatedAsSuccess exc = true ↔
          (containsSub "resource_already_exists_exception".data (pyLower exc).data = true ∨
           containsSub "already_exists_exception".data (pyLower exc).data = true ∨
           containsSub "conflict".data (pyLower exc).data = true ∨
           containsSub "400".data (pyLower exc).data = true))) := by
  intro resp ensured name exc hmem hcr
  refine ⟨?_, ?_, ?_⟩
  · intro hsucc
    simp [ensure_index, hmem, hcr, hsucc]
  · intro hfail
    simp [ensure_index, hmem, hcr, hfail]
  · simp only [createErrorTreatedAsSuccess, Bool.or_eq_true]
    tauto

/-- C9 witness: a creation failure mentioning `400` at a concrete input is
treated as success and the index is marked ensured. -/
theorem ensure_index_create_error_spec_witness :
    ("flights-2024" ∉ ([] : List String)) ∧
    (ensure_index ⟨.ok false, .ok (), .error "BadRequestError(400)"⟩ [] "flights-2024").1 =
      .ok ["flights-2024"] := by
  refine ⟨by decide, ?_⟩
  have h := (ensure_index_create_error_spec ⟨.ok false, .ok (), .error "BadRequestError(400)"⟩
    [] "flights-2024" "BadRequestError(400)" (by decide) rfl).1
  exact h (by decide)

/-- C1 counterexample: with the store reporting that the index already
exists (`existsR = .ok true`) and all store calls succeeding, the first
`_ensure_index` call issues a delete and a creation call — it does not skip
creation and does not leave the existing index untouched, contrary to the
claim. -/
theorem ensure_index_skip_counterexample :
    (ensure_index ⟨.ok true, .ok (), .ok ()⟩ [] "flights-2024").2 =
      [.existsQ "flights-2024", .deleteI "flights-2024", .createI "flights-2024"] ∧
    StoreCall.deleteI "flights-2024" ∈ (ensure_index ⟨.ok true, .ok (), .ok ()⟩ [] "flights-2024").2 ∧
    StoreCall.createI "flights-2024" ∈ (ensure_index ⟨.ok true, .ok (), .ok ()⟩ [] "flights-2024").2 := by
  refine ⟨rfl, ?_, ?_⟩ <;> decide

/-- C1 (amended): for every index name, the first `_ensure_index` call in a
run performs exactly one existence check and exactly one creation call, and
when the store already has the index it deletes it before recreating it
(rather than skipping creation); a second call for the same name in the same
run performs no store call at all; and a creation response indicating the
index already exists is treated as success, not error. -/
theorem ensure_index_spec :
    ∀ (resp : EnsureResponses) (ensured : List String) (name : String),
      (name ∉ ensured →
        (ensure_index resp ensured name).2.count (.existsQ name) = 1 ∧
        (ensure_index resp ensured name).2.count (.createI name) = 1 ∧
        (resp.existsR = .ok true →
          (ensure_index resp ensured name).2 =
            [.existsQ name, .deleteI name, .createI name]) ∧
        (resp.createR = .ok () →
          (ensure_index resp ensured name).1 = .ok (ensured ++ [name])) ∧
        (∀ exc, resp.createR = .error exc → createErrorTreatedAsSuccess exc = true →
          (ensure_index resp ensured name).1 = .ok (ensured ++ [name]))) ∧
      (name ∈ ensured → ensure_index resp ensured name = (.ok ensured, [])) := by
  intro resp ensured name
  constructor
  · intro hnew
    obtain ⟨er, dr, cr⟩ := resp
    refine ⟨?_, ?_, ?_, ?_, ?_⟩
    · cases er with
      | error e => cases cr <;> simp [ensure_index, hnew, List.count_cons]
      | ok b => cases b <;> cases cr <;> simp [ensure_index, hnew, List.count_cons]
    · cases er with
      | error e => cases cr <;> simp [ensure_index, hnew, List.count_cons]
      | ok b => cases b <;> cases cr <;> simp [ensure_index, hnew, List.count_cons]
    · intro hex
      cases cr <;> simp_all [ensure_index, hnew]
    · intro hok
      cases cr with
      | error exc => simp at hok
      | ok u =>
        cases er with
        | error e => simp [ensure_index, hnew]
        | ok b => cases b <;> simp [ensure_index, hnew]
    · intro exc hexc hsucc
      cases cr with
      | ok u => simp at hexc
      | error exc2 =>
        simp at hexc
        subst hexc
        cases er with
        | error e => simp [ensure_index, hnew, hsucc]
        | ok b => cases b <;> simp [ensure_index, hnew, hsucc]
  · intro hold
    simp [ensure_index, hold]

/-- C1 witness: concrete first and second calls for the same name — the
first issues existence check, delete and create; the second issues nothing,
and an already-exists creation failure is success. -/
theorem ensure_index_spec_witness :
    ("f-2024" ∉ ([] : List String)) ∧
    (ensure_index ⟨.ok true, .ok (), .ok ()⟩ [] "f-2024").2 =
      [.existsQ "f-2024", .deleteI "f-2024", .createI "f-2024"] ∧
    ("f-2024" ∈ ["f-2024"]) ∧
    ensure_index ⟨.ok true, .ok (), .ok ()⟩ ["f-2024"] "f-2024" = (.ok ["f-2024"], []) ∧
    (ensure_index ⟨.ok false, .ok (), .error "resource_already_exists_exception"⟩
        [] "f-2024").1 = .ok ["f-2024"] := by
  refine ⟨by decide, ?_, by decide, ?_, ?_⟩
  · exact ((ensure_index_spec ⟨.ok true, .ok (), .ok ()⟩ [] "f-2024").1 (by decide)).2.2.1 rfl
  · exact (ensure_index_spec ⟨.ok true, .ok (), .ok ()⟩ ["f-2024"] "f-2024").2 (by decide)
  · exact (((ensure_index_spec ⟨.ok false, .ok (), .error "resource_already_exists_exception"⟩
      [] "f-2024").1 (by decide)).2.2.2.2 "resource_already_exists_exception" rfl (by decide))

/-- C2: a bulk response with `errors = true` logs at most the first five
item-level errors and raises a fatal `RuntimeError` that aborts the run with
no retry and no partial continuation — the remaining batches are never
issued and `loadedRecords` stays at the sum of the document counts of the
fully-flushed prior batches. -/
theorem flush_error_aborts_spec :
    ∀ (loaded : ℕ) (prior : List (List RawDoc)) (failDocs : List RawDoc)
      (items : List (Option String)) (rest : List (List RawDoc × BulkResp)),
      runBulks loaded (prior.map (fun d => (d, BulkResp.ok false [])) ++
          (failDocs, BulkResp.ok true items) :: rest) =
        (loaded + (prior.map List.length).sum,
          some ((extractItemErrors items).take 5,
            "Bulk request failed: Bulk indexing reported errors; aborting")) ∧
      ((extractItemErrors items).take 5).length ≤ 5 := by
  intro loaded prior failDocs items rest
  constructor
  · induction prior generalizing loaded with
    | nil => simp [runBulks, flushOutcome]
    | cons d ds ih =>
      have h1 : flushOutcome d (BulkResp.ok false []) = ([], .ok d.length) := rfl
      simp only [List.map_cons, List.cons_append, runBulks, h1, List.append_eq]
      rw [ih (loaded + d.length)]
      simp [List.sum_cons]
      omega
  · exact le_trans (List.length_take_le 5 _) (le_refl 5)

/-- C3 counterexample: a file list whose first entry is not a regular file
does not abort the run — the file is skipped (`false`) and the following
file is still imported (`true`), contrary to the claim that such a
file-open error is fatal. -/
theorem import_files_skip_counterexample :
    import_files_outcome [FileKind.notFile, FileKind.plainOk] = .ok [false, true] := by
  rfl

/-- C3 (amended): an unreadable zip or gzip archive, or a zip archive with
no `.csv` entry, is fatal — the exception propagates past any number of
earlier successfully-handled files and aborts the whole run; but a path that
is not an existing regular file is not fatal: it is skipped with a warning
and the run continues with the remaining files. -/
theorem import_files_fatal_spec :
    ∀ (rest : List FileKind) (names : List String) (msg : String)
      (files : List FileKind),
      (findCsvEntry names = none →
        import_files_outcome (FileKind.zipEntries names :: rest) =
          .error "No CSV entry found in archive") ∧
      (import_files_outcome (FileKind.archiveError msg :: rest) = .error msg) ∧
      (import_files_outcome (FileKind.notFile :: rest) =
        (import_files_outcome rest).map (fun l => false :: l)) ∧
      (∀ f e, import_file_outcome f = .error e →
        (∀ g ∈ files, ∃ b, import_file_outcome g = .ok b) →
        import_files_outcome (files ++ f :: rest) = .error e) := by
  intro rest names msg files
  refine ⟨?_, ?_, ?_, ?_⟩
  · intro h
    simp [import_files_outcome, import_file_outcome, h]
  · rfl
  · rfl
  · intro f e hf hok
    induction files with
    | nil => simp [import_files_outcome, hf]
    | cons g gs ih =>
      obtain ⟨b, hb⟩ := hok g (by simp)
      have hih := ih (fun g' hg' => hok g' (by simp [hg']))
      simp only [List.cons_append, import_files_outcome, hb, List.append_eq, hih]
      rfl

/-- C3 witness: a zip archive with no CSV entry aborts the run even after an
earlier file imported successfully. -/
theorem import_files_fatal_spec_witness :
    (findCsvEntry ["readme.txt"] = none) ∧
    import_files_outcome [FileKind.zipEntries ["readme.txt"]] =
      .error "No CSV entry found in archive" ∧
    (import_file_outcome (FileKind.zipEntries ["readme.txt"]) =
      .error "No CSV entry found in archive") ∧
    import_files_outcome [FileKind.plainOk, FileKind.zipEntries ["readme.txt"]] =
      .error "No CSV entry found in archive" := by
  refine ⟨by decide, ?_, by rfl, ?_⟩
  · exact (import_files_fatal_spec [] ["readme.txt"] "" []).1 (by decide)
  · exact (import_files_fatal_spec [] [] "" [FileKind.plainOk]).2.2.2
      (FileKind.zipEntries ["readme.txt"]) "No CSV entry found in archive" (by rfl)
      (by intro g hg; simp at hg; subst hg; exact ⟨true, rfl⟩)

/-- Index routing as `_import_file` performs it: filename hints extracted
once per file (line 300), then `_extract_index_name` per document. -/
def routeForFile (base fname : String) (timestamp : Option String) : Option String :=
  extract_index_name base timestamp
    (extract_year_month_from_filename fname).1
    (extract_year_month_from_filename fname).2

lemma data_of_length_four {y : String} (h : y.length = 4) :
    ∃ a b c d, y.data = [a, b, c, d] := by
  obtain ⟨l⟩ := y
  simp only [String.length] at h
  rcases l with _ | ⟨a, l⟩; · simp at h
  rcases l with _ | ⟨b, l⟩; · simp at h
  rcases l with _ | ⟨c, l⟩; · simp at h
  rcases l with _ | ⟨d, l⟩; · simp at h
  rcases l with _ | ⟨e, l⟩
  · exact ⟨a, b, c, d, rfl⟩
  · simp at h

lemma data_of_length_two {m : String} (h : m.length = 2) :
    ∃ a b, m.data = [a, b] := by
  obtain ⟨l⟩ := m
  simp only [String.length] at h
  rcases l with _ | ⟨a, l⟩; · simp at h
  rcases l with _ | ⟨b, l⟩; · simp at h
  rcases l with _ | ⟨c, l⟩
  · exact ⟨a, b, rfl⟩
  · simp at h

lemma matchYM_hit (pre : List Char) (y1 y2 y3 y4 m1 m2 : Char)
    (d1 : y1.isDigit) (d2 : y2.isDigit) (d3 : y3.isDigit) (d4 : y4.isDigit)
    (d5 : m1.isDigit) (d6 : m2.isDigit) :
    matchYM (pre ++ '-' :: y1 :: y2 :: y3 :: y4 :: '-' :: [m1, m2]) =
      some ([y1, y2, y3, y4], [m1, m2]) := by
  simp [matchYM, List.reverse_append, d1, d2, d3, d4, d5, d6]

lemma matchYM_miss (pre : List Char) (a b c d : Char) :
    matchYM (pre ++ '-' :: [a, b, c, d]) = none := by
  unfold matchYM
  simp only [List.reverse_append, List.reverse_cons, List.reverse_nil,
    List.nil_append, List.cons_append, List.append_assoc]
  rcases pre.reverse with _ | ⟨r1, _ | ⟨r2, _ | ⟨r3, rest⟩⟩⟩ <;>
    simp [show ('-').isDigit = false from rfl]

lemma matchYearEnd_hit (pre : List Char) (a b c d : Char)
    (d1 : a.isDigit) (d2 : b.isDigit) (d3 : c.isDigit) (d4 : d.isDigit) :
    matchYearEnd (pre ++ '-' :: [a, b, c, d]) = some [a, b, c, d] := by
  simp [matchYearEnd, List.reverse_append, d1, d2, d3, d4]

lemma tsYearMatch_hit (y1 y2 y3 y4 o1 o2 e1 e2 : Char) (rest : List Char)
    (d1 : y1.isDigit) (d2 : y2.isDigit) (d3 : y3.isDigit) (d4 : y4.isDigit)
    (d5 : o1.isDigit) (d6 : o2.isDigit) (d7 : e1.isDigit) (d8 : e2.isDigit) :
    tsYearMatch (y1 :: y2 :: y3 :: y4 :: '-' :: o1 :: o2 :: '-' :: e1 :: e2 :: rest) =
      some [y1, y2, y3, y4] := by
  simp [tsYearMatch, d1, d2, d3, d4, d5, d6, d7, d8]

lemma string_mk_ne_empty (a : Char) (l : List Char) : (⟨a :: l⟩ : String) ≠ "" := by
  simp [String.ext_iff]

/-- C4: the target index name is derived with the exact precedence: a
`-YYYY-MM` suffix of the extension-stripped filename gives
`{base}-{YYYY}-{MM}` regardless of the timestamp; else a `-YYYY` suffix
gives `{base}-{YYYY}`; else a timestamp starting with `YYYY-MM-DD` gives
`{base}-{YYYY}`; else the row is unroutable and `_import_file` drops it,
never buffering or submitting it. -/
theorem index_routing_spec :
    ∀ (base fname : String) (ts : Option String),
      (∀ stem y m : String,
        stripExts fname = stem ++ "-" ++ y ++ "-" ++ m →
        y.length = 4 → (∀ c ∈ y.data, c.isDigit) →
        m.length = 2 → (∀ c ∈ m.data, c.isDigit) →
        routeForFile base fname ts = some (base ++ "-" ++ y ++ "-" ++ m)) ∧
      (∀ stem y : String,
        stripExts fname = stem ++ "-" ++ y →
        y.length = 4 → (∀ c ∈ y.data, c.isDigit) →
        routeForFile base fname ts = some (base ++ "-" ++ y)) ∧
      (extract_year_month_from_filename fname = (none, none) →
        (∀ y mo dd r : String,
          ts = some (y ++ "-" ++ mo ++ "-" ++ dd ++ r) →
          y.length = 4 → (∀ c ∈ y.data, c.isDigit) →
          mo.length = 2 → (∀ c ∈ mo.data, c.isDigit) →
          dd.length = 2 → (∀ c ∈ dd.data, c.isDigit) →
          routeForFile base fname ts = some (base ++ "-" ++ y)) ∧
        (∀ t, ts = some t → tsYearMatch t.data = none → routeForFile base fname ts = none) ∧
        (ts = none → routeForFile base fname ts = none)) ∧
      (∀ (bs : ℕ) (fy fm : Option String) (airports cancellations : String → Option String)
          (st : ImpState) (row : Row) (rawDoc : RawDoc),
        transform_row airports cancellations row = .ok rawDoc →
        extract_index_name base (docTimestamp rawDoc) fy fm = none →
        processRow bs base fy fm airports cancellations st row = .ok st) := by
  intro base fname ts
  refine ⟨?_, ?_, ?_, ?_⟩
  · intro stem y m hsplit hylen hydig hmlen hmdig
    obtain ⟨y1, y2, y3, y4, hy⟩ := data_of_length_four hylen
    obtain ⟨m1, m2, hm⟩ := data_of_length_two hmlen
    have hyS : y = ⟨[y1, y2, y3, y4]⟩ := String.ext hy
    have hmS : m = ⟨[m1, m2]⟩ := String.ext hm
    have hd : (stripExts fname).data =
        stem.data ++ '-' :: y1 :: y2 :: y3 :: y4 :: '-' :: [m1, m2] := by
      simp [hsplit, String.data_append, hy, hm]
    have hYM : matchYM (stripExts fname).data = some ([y1, y2, y3, y4], [m1, m2]) := by
      rw [hd]
      exact matchYM_hit stem.data y1 y2 y3 y4 m1 m2
        (hydig y1 (by simp [hy])) (hydig y2 (by simp [hy]))
        (hydig y3 (by simp [hy])) (hydig y4 (by simp [hy]))
        (hmdig m1 (by simp [hm])) (hmdig m2 (by simp [hm]))
    have hfy : extract_year_month_from_filename fname =
        (some ⟨[y1, y2, y3, y4]⟩, some ⟨[m1, m2]⟩) := by
      simp [extract_year_month_from_filename, hYM]
    rw [hyS, hmS]
    simp [routeForFile, hfy, extract_index_name, truthy,
      string_mk_ne_empty]
  · intro stem y hsplit hylen hydig
    obtain ⟨y1, y2, y3, y4, hy⟩ := data_of_length_four hylen
    have hyS : y = ⟨[y1, y2, y3, y4]⟩ := String.ext hy
    have hd : (stripExts fname).data = stem.data ++ '-' :: [y1, y2, y3, y4] := by
      simp [hsplit, String.data_append, hy]
    have hYM : matchYM (stripExts fname).data = none := by
      rw [hd]; exact matchYM_miss stem.data y1 y2 y3 y4
    have hYE : matchYearEnd (stripExts fname).data = some [y1, y2, y3, y4] := by
      rw [hd]
      exact matchYearEnd_hit stem.data y1 y2 y3 y4
        (hydig y1 (by simp [hy])) (hydig y2 (by simp [hy]))
        (hydig y3 (by simp [hy])) (hydig y4 (by simp [hy]))
    have hfy : extract_year_month_from_filename fname = (some ⟨[y1, y2, y3, y4]⟩, none) := by
      simp [extract_year_month_from_filename, hYM, hYE]
    rw [hyS]
    simp [routeForFile, hfy, extract_index_name, truthy, string_mk_ne_empty]
  · intro hnone
    refine ⟨?_, ?_, ?_⟩
    · intro y mo dd r hts hylen hydig hmolen hmodig hddlen hdddig
      obtain ⟨y1, y2, y3, y4, hy⟩ := data_of_length_four hylen
      obtain ⟨o1, o2, ho⟩ := data_of_length_two hmolen
      obtain ⟨e1, e2, he⟩ := data_of_length_two hddlen
      have hyS : y = ⟨[y1, y2, y3, y4]⟩ := String.ext hy
      have hd : (y ++ "-" ++ mo ++ "-" ++ dd ++ r).data =
          y1 :: y2 :: y3 :: y4 :: '-' :: o1 :: o2 :: '-' :: e1 :: e2 :: r.data := by
        simp [String.data_append, hy, ho, he]
      have hTS : tsYearMatch (y ++ "-" ++ mo ++ "-" ++ dd ++ r).data =
          some [y1, y2, y3, y4] := by
        rw [hd]
        exact tsYearMatch_hit y1 y2 y3 y4 o1 o2 e1 e2 r.data
          (hydig y1 (by simp [hy])) (hydig y2 (by simp [hy]))
          (hydig y3 (by simp [hy])) (hydig y4 (by simp [hy]))
          (hmodig o1 (by simp [ho])) (hmodig o2 (by simp [ho]))
          (hdddig e1 (by simp [he])) (hdddig e2 (by simp [he]))
      have hne : (y ++ "-" ++ mo ++ "-" ++ dd ++ r) ≠ "" := by
        intro hcon
        rw [String.ext_iff, hd] at hcon
        simp at hcon
      rw [hyS]
      simp only [routeForFile, hnone, hts]
      simp [extract_index_name, truthy, hne]
      have hTS2 := hTS
      simp only [String.data_append, List.cons_append, List.append_assoc,
        List.nil_append] at hTS2
      rw [hTS2]
    · intro t hts hmiss
      simp [routeForFile, hnone, hts, extract_index_name, truthy, hmiss]
    · intro hts
      simp [routeForFile, hnone, hts, extract_index_name, truthy]
  · intro bs fy fm airports cancellations st row rawDoc htr hroute
    unfold processRow
    rw [htr]
    by_cases hD : rawDoc.isEmpty
    · simp [hD]
    · simp [hD, hroute]

set_option maxHeartbeats 1600000 in
/-- C4 witness: the specification's three routing examples at concrete
inputs — a `-YYYY-MM` filename beats a conflicting timestamp year, a plain
filename routes by the timestamp year, and an unparsable timestamp is
unroutable. -/
theorem index_routing_spec_witness :
    (stripExts "flights-2024-03.csv" = "flights" ++ "-" ++ "2024" ++ "-" ++ "03") ∧
    routeForFile "flights" "flights-2024-03.csv" (some "1999-01-01") =
      some ("flights" ++ "-" ++ "2024" ++ "-" ++ "03") ∧
    (extract_year_month_from_filename "flights.csv" = (none, none)) ∧
    routeForFile "flights" "flights.csv" (some "2023-07-15") =
      some ("flights" ++ "-" ++ "2023") ∧
    routeForFile "flights" "flights.csv" (some "bad-ts") = none := by
  refine ⟨by decide, ?_, by decide, ?_, ?_⟩
  · exact (index_routing_spec "flights" "flights-2024-03.csv" (some "1999-01-01")).1
      "flights" "2024" "03" (by decide) (by decide) (by decide) (by decide) (by decide)
  · exact (((index_routing_spec "flights" "flights.csv" (some "2023-07-15")).2.2.1
        (by decide)).1 "2023" "07" "15" ""
        (by decide) (by decide) (by decide) (by decide) (by decide) (by decide) (by decide))
  · exact (((index_routing_spec "flights" "flights.csv" (some "bad-ts")).2.2.1
        (by decide)).2.1 "bad-ts" rfl (by decide))

/-! ### Buffer bookkeeping lemmas for the batching invariant -/

lemma bufGet_nil (idx : String) : bufGet [] idx = [] := rfl

lemma bufGet_cons_self (k : String) (l : List RawDoc) (rest : List (String × List RawDoc)) :
    bufGet ((k, l) :: rest) k = l := by
  simp [bufGet, List.find?]

lemma bufGet_cons_ne {k idx : String} (h : k ≠ idx) (l : List RawDoc)
    (rest : List (String × List RawDoc)) :
    bufGet ((k, l) :: rest) idx = bufGet rest idx := by
  have hb : (k == idx) = false := by simpa using h
  simp [bufGet, List.find?, hb]

lemma bufGet_bufAdd_self (bufs : List (String × List RawDoc)) (idx : String) (d : RawDoc) :
    bufGet (bufAdd bufs idx d) idx = bufGet bufs idx ++ [d] := by
  induction bufs with
  | nil => simp [bufAdd, bufGet, List.find?]
  | cons p rest ih =>
    obtain ⟨k, l⟩ := p
    by_cases hk : k = idx
    · subst hk
      simp [bufAdd, bufGet_cons_self]
    · simp [bufAdd, hk, bufGet_cons_ne hk, ih]

lemma mem_bufAdd {bufs : List (String × List RawDoc)} {idx : String} {d : RawDoc}
    {p : String × List RawDoc} (h : p ∈ bufAdd bufs idx d) :
    p ∈ bufs ∨ p = (idx, bufGet bufs idx ++ [d]) := by
  induction bufs with
  | nil =>
    simp [bufAdd] at h
    right
    simp [h, bufGet_nil]
  | cons q rest ih =>
    obtain ⟨k, l⟩ := q
    by_cases hk : k = idx
    · subst hk
      simp [bufAdd] at h
      rcases h with h | h
      · right
        simp [h, bufGet_cons_self]
      · left
        simp [h]
    · simp [bufAdd, hk] at h
      rcases h with h | h
      · left
        simp [h]
      · rcases ih h with h' | h'
        · left
          simp [h']
        · right
          rw [h', bufGet_cons_ne hk]

lemma keys_bufClear (bufs : List (String × List RawDoc)) (idx : String) :
    (bufClear bufs idx).map Prod.fst = bufs.map Prod.fst := by
  induction bufs with
  | nil => rfl
  | cons q rest ih =>
    obtain ⟨k, l⟩ := q
    by_cases hk : k = idx
    · subst hk
      simp [bufClear]
    · simp [bufClear, hk, ih]

lemma mem_keys_bufAdd {bufs : List (String × List RawDoc)} {idx : String} {d : RawDoc}
    {x : String} (h : x ∈ (bufAdd bufs idx d).map Prod.fst) :
    x ∈ bufs.map Prod.fst ∨ x = idx := by
  simp only [List.mem_map] at h
  obtain ⟨p, hp, hx⟩ := h
  rcases mem_bufAdd hp with h' | h'
  · left
    exact List.mem_map.mpr ⟨p, h', hx⟩
  · right
    rw [h'] at hx
    exact hx.symm

lemma nodup_keys_bufAdd {bufs : List (String × List RawDoc)} {idx : String} {d : RawDoc}
    (h : (bufs.map Prod.fst).Nodup) : ((bufAdd bufs idx d).map Prod.fst).Nodup := by
  induction bufs with
  | nil => simp [bufAdd]
  | cons q rest ih =>
    obtain ⟨k, l⟩ := q
    simp only [List.map_cons, List.nodup_cons] at h
    by_cases hk : k = idx
    · subst hk
      simpa [bufAdd] using h
    · simp only [bufAdd, if_neg hk, List.map_cons, List.nodup_cons]
      refine ⟨?_, ih h.2⟩
      intro hmem
      rcases mem_keys_bufAdd hmem with h' | h'
      · exact h.1 h'
      · exact hk h'

lemma mem_bufClear {bufs : List (String × List RawDoc)} {idx : String}
    (hnd : (bufs.map Prod.fst).Nodup) {p : String × List RawDoc}
    (h : p ∈ bufClear bufs idx) :
    p.2 = [] ∨ (p ∈ bufs ∧ p.1 ≠ idx) := by
  induction bufs with
  | nil => simp [bufClear] at h
  | cons q rest ih =>
    obtain ⟨k, l⟩ := q
    simp only [List.map_cons, List.nodup_cons] at hnd
    by_cases hk : k = idx
    · subst hk
      simp [bufClear] at h
      rcases h with h | h
      · left
        simp [h]
      · right
        refine ⟨List.mem_cons_of_mem _ h, ?_⟩
        intro hpk
        exact hnd.1 (List.mem_map.mpr ⟨p, h, hpk⟩)
    · simp [bufClear, hk] at h
      rcases h with h | h
      · right
        exact ⟨by simp [h], by simp [h, hk]⟩
      · rcases ih hnd.2 h with h' | h'
        · left
          exact h'
        · right
          exact ⟨List.mem_cons_of_mem _ h'.1, h'.2⟩

lemma bufGet_eq_nil_or_mem (bufs : List (String × List RawDoc)) (idx : String) :
    bufGet bufs idx = [] ∨ (idx, bufGet bufs idx) ∈ bufs := by
  induction bufs with
  | nil => left; rfl
  | cons q rest ih =>
    obtain ⟨k, l⟩ := q
    by_cases hk : k = idx
    · subst hk
      right
      rw [bufGet_cons_self]
      exact List.mem_cons_self _ _
    · rw [bufGet_cons_ne hk]
      rcases ih with h | h
      · left; exact h
      · right; exact List.mem_cons_of_mem _ h

/-- The run invariant of the per-file buffering loop: buffer keys are
distinct, every buffer holds strictly fewer documents than the batch size,
and every flushed batch is nonempty and within the batch size. -/
def BufInv (bs : ℕ) (st : ImpState) : Prop :=
  (st.bufs.map Prod.fst).Nodup ∧
  (∀ p ∈ st.bufs, p.2.length < bs) ∧
  (∀ p ∈ st.flushes, 1 ≤ p.2.length ∧ p.2.length ≤ bs)

lemma processRow_inv {bs : ℕ} {base : String} {fy fm : Option String}
    {airports cancellations : String → Option String} {st st' : ImpState} {row : Row}
    (hbs : 1 ≤ bs) (hinv : BufInv bs st)
    (hstep : processRow bs base fy fm airports cancellations st row = .ok st') :
    BufInv bs st' := by
  unfold processRow at hstep
  split at hstep
  · simp at hstep
  · rename_i rawDoc hraw
    split at hstep
    · injection hstep with h
      exact h ▸ hinv
    · split at hstep
      · injection hstep with h
        exact h ▸ hinv
      · rename_i idx hidx
        split at hstep
        · injection hstep with h
          exact h ▸ hinv
        · split at hstep
          · -- flush branch
            rename_i hcond
            injection hstep with h
            subst h
            have hn : (bufGet st.bufs idx).length < bs := by
              rcases bufGet_eq_nil_or_mem st.bufs idx with h0 | hmem
              · rw [h0]; simpa using hbs
              · exact hinv.2.1 _ hmem
            have hge : bufGet (bufAdd st.bufs idx (filterDoc rawDoc)) idx =
                bufGet st.bufs idx ++ [filterDoc rawDoc] := bufGet_bufAdd_self _ _ _
            refine ⟨?_, ?_, ?_⟩
            · dsimp only
              rw [keys_bufClear]
              exact nodup_keys_bufAdd hinv.1
            · intro p hp
              rcases mem_bufClear (nodup_keys_bufAdd hinv.1) hp with h0 | ⟨hmem, hne⟩
              · rw [h0]; simpa using hbs
              · rcases mem_bufAdd hmem with hold | heq
                · exact hinv.2.1 _ hold
                · exact absurd (by rw [heq]) hne
            · intro p hp
              simp only [List.mem_append, List.mem_singleton] at hp
              rcases hp with hp | hp
              · exact hinv.2.2 _ hp
              · subst hp
                rw [hge]
                simp only [List.length_append, List.length_singleton]
                omega
          · -- no-flush branch
            rename_i hcond
            injection hstep with h
            subst h
            have hge : bufGet (bufAdd st.bufs idx (filterDoc rawDoc)) idx =
                bufGet st.bufs idx ++ [filterDoc rawDoc] := bufGet_bufAdd_self _ _ _
            refine ⟨nodup_keys_bufAdd hinv.1, ?_, hinv.2.2⟩
            intro p hp
            rcases mem_bufAdd hp with hold | heq
            · exact hinv.2.1 _ hold
            · rw [heq]
              have := hcond
              rw [hge] at this
              simpa using Nat.lt_of_not_le this

lemma foldl_processRow_inv {bs : ℕ} {base : String} {fy fm : Option String}
    {airports cancellations : String → Option String} (hbs : 1 ≤ bs) :
    ∀ (rows : List Row) (st st' : ImpState), BufInv bs st →
      List.foldlM (processRow bs base fy fm airports cancellations) st rows = .ok st' →
      BufInv bs st' := by
  intro rows
  induction rows with
  | nil =>
    intro st st' hinv h
    simp only [List.foldlM, pure, Except.pure] at h
    injection h with h
    exact h ▸ hinv
  | cons r rs ih =>
    intro st st' hinv h
    rw [List.foldlM_cons] at h
    cases hpr : processRow bs base fy fm airports cancellations st r with
    | error e => rw [hpr] at h; simp [Bind.bind, Except.bind] at h
    | ok mid =>
      rw [hpr] at h
      simp only [Bind.bind, Except.bind] at h
      exact ih mid st' (processRow_inv hbs hinv hpr) h

lemma finalize_flush_bounds {bs : ℕ} {st : ImpState} (hinv : BufInv bs st) :
    ∀ p ∈ (finalizeState st).flushes, 1 ≤ p.2.length ∧ p.2.length ≤ bs := by
  intro p hp
  simp only [finalizeState, List.mem_append, List.mem_filter] at hp
  rcases hp with hp | ⟨hmem, hne⟩
  · exact hinv.2.2 _ hp
  · have hlen := hinv.2.1 _ hmem
    have : p.2 ≠ [] := by
      intro h0
      rw [h0] at hne
      simp at hne
    have hpos : 0 < p.2.length := List.length_pos.mpr this
    omega

lemma finalize_leftover (st : ImpState) :
    ∀ p ∈ st.bufs, p.2 ≠ [] → (p.1, p.2) ∈ (finalizeState st).flushes := by
  intro p hp hne
  simp only [finalizeState, List.mem_append, List.mem_filter]
  right
  constructor
  · simpa using hp
  · simpa using hne

lemma one_le_effectiveBatchSize (requested : ℤ) : 1 ≤ effectiveBatchSize requested := by
  simp only [effectiveBatchSize]
  omega

/-- C7: with a positive configured batch size, every bulk request issued by
one `_import_file` call carries at most `batch_size` documents (a full
buffer is flushed as soon as it reaches the batch size), every flush is
nonempty, the end-of-file pass flushes every remaining non-empty per-index
buffer, and no buffered document remains after the file completes without
error. -/
theorem batch_size_bound_spec :
    ∀ (requested : ℤ), 1 ≤ requested →
    ∀ (base : String) (fy fm : Option String)
      (airports cancellations : String → Option String) (rows : List Row) (st : ImpState),
      importFileRun (effectiveBatchSize requested) base fy fm airports cancellations rows =
        .ok st →
      (∀ p ∈ st.flushes, 1 ≤ p.2.length ∧ (p.2.length : ℤ) ≤ requested) ∧
      st.bufs = [] ∧
      (∀ st₀, List.foldlM
          (processRow (effectiveBatchSize requested) base fy fm airports cancellations)
          (⟨[], []⟩ : ImpState) rows = .ok st₀ →
        ∀ p ∈ st₀.bufs, p.2 ≠ [] → (p.1, p.2) ∈ st.flushes) := by
  intro requested hreq base fy fm airports cancellations rows st hrun
  have hbs := one_le_effectiveBatchSize requested
  have hcast : (effectiveBatchSize requested : ℤ) = requested := by
    simp only [effectiveBatchSize]
    omega
  unfold importFileRun at hrun
  cases hf : List.foldlM
      (processRow (effectiveBatchSize requested) base fy fm airports cancellations)
      (⟨[], []⟩ : ImpState) rows with
  | error e => rw [hf] at hrun; simp [Except.map] at hrun
  | ok st₀ =>
    rw [hf] at hrun
    simp only [Except.map] at hrun
    injection hrun with hst
    have hinv0 : BufInv (effectiveBatchSize requested) ⟨[], []⟩ := by
      refine ⟨by simp, by simp, by simp⟩
    have hinv := foldl_processRow_inv hbs rows _ _ hinv0 hf
    refine ⟨?_, ?_, ?_⟩
    · intro p hp
      rw [← hst] at hp
      have := finalize_flush_bounds hinv _ hp
      omega
    · rw [← hst]
      rfl
    · intro st₀' hf' p hp hne
      injection hf' with h0
      rw [← hst]
      exact finalize_leftover st₀ p (h0 ▸ hp) hne

/-- C10: for every requested batch size, including zero and negative
values, the loader's effective batch size is `max(1, requested)`, hence at
least 1, and every flush issued by the per-file run carries at least one
document — flushing can never be postponed indefinitely by a non-positive
configured batch size. -/
theorem effective_batch_size_spec :
    ∀ (requested : ℤ),
      (effectiveBatchSize requested : ℤ) = max 1 requested ∧
      1 ≤ effectiveBatchSize requested ∧
      ∀ (base : String) (fy fm : Option String)
        (airports cancellations : String → Option String) (rows : List Row) (st : ImpState),
        importFileRun (effectiveBatchSize requested) base fy fm airports cancellations rows =
          .ok st →
        ∀ p ∈ st.flushes, 1 ≤ p.2.length := by
  intro requested
  have hbs := one_le_effectiveBatchSize requested
  refine ⟨?_, hbs, ?_⟩
  · simp only [effectiveBatchSize]
    omega
  · intro base fy fm airports cancellations rows st hrun
    unfold importFileRun at hrun
    cases hf : List.foldlM
        (processRow (effectiveBatchSize requested) base fy fm airports cancellations)
        (⟨[], []⟩ : ImpState) rows with
    | error e => rw [hf] at hrun; simp [Except.map] at hrun
    | ok st₀ =>
      rw [hf] at hrun
      simp only [Except.map] at hrun
      injection hrun with hst
      have hinv0 : BufInv (effectiveBatchSize requested) ⟨[], []⟩ := by
        refine ⟨by simp, by simp, by simp⟩
      have hinv := foldl_processRow_inv hbs rows _ _ hinv0 hf
      intro p hp
      rw [← hst] at hp
      exact (finalize_flush_bounds hinv _ hp).1

/-- C7 witness: a one-row file at batch size 1 produces a single flush of
one document, within the configured batch size, and empty final buffers. -/
theorem batch_size_bound_spec_witness :
    ((1 : ℤ) ≤ 1) ∧
    importFileRun (effectiveBatchSize 1) "flights" none none (fun _ => none) (fun _ => none)
        [fun k => if k = "FlightDate" then some "2024-03-05" else none] =
      .ok ⟨[], [("flights-2024", [[("@timestamp", .pyStr "2024-03-05")]])]⟩ ∧
    (∀ p ∈ ((⟨[], [("flights-2024", [[("@timestamp", .pyStr "2024-03-05")]])]⟩ :
        ImpState)).flushes, 1 ≤ p.2.length ∧ (p.2.length : ℤ) ≤ 1) ∧
    ((⟨[], [("flights-2024", [[("@timestamp", .pyStr "2024-03-05")]])]⟩ :
        ImpState)).bufs = [] := by
  have h := batch_size_bound_spec 1 (by decide) "flights" none none
      (fun _ => none) (fun _ => none)
      [fun k => if k = "FlightDate" then some "2024-03-05" else none]
      ⟨[], [("flights-2024", [[("@timestamp", .pyStr "2024-03-05")]])]⟩ (by rfl)
  exact ⟨by decide, by rfl, h.1, h.2.1⟩

/-- C10 witness: with a requested batch size of 0 the effective batch size
is `max 1 0 = 1` and a concrete run's only flush still carries one
document. -/
theorem effective_batch_size_spec_witness :
    (effectiveBatchSize 0 : ℤ) = max 1 0 ∧
    1 ≤ effectiveBatchSize 0 ∧
    importFileRun (effectiveBatchSize 0) "flights" none none (fun _ => none) (fun _ => none)
        [fun k => if k = "FlightDate" then some "2024-03-05" else none] =
      .ok ⟨[], [("flights-2024", [[("@timestamp", .pyStr "2024-03-05")]])]⟩ ∧
    (∀ p ∈ ((⟨[], [("flights-2024", [[("@timestamp", .pyStr "2024-03-05")]])]⟩ :
        ImpState)).flushes, 1 ≤ p.2.length) := by
  have h := (effective_batch_size_spec 0).2.2 "flights" none none
      (fun _ => none) (fun _ => none)
      [fun k => if k = "FlightDate" then some "2024-03-05" else none]
      ⟨[], [("flights-2024", [[("@timestamp", .pyStr "2024-03-05")]])]⟩ (by rfl)
  exact ⟨(effective_batch_size_spec 0).1, (effective_batch_size_spec 0).2.1, by rfl, h⟩

/-! ### Document shape lemmas -/

lemma mem_filterDoc {doc : RawDoc} {p : String × PyVal} :
    p ∈ filterDoc doc ↔ p ∈ doc ∧ p.2 ≠ .pyNone := by
  simp [filterDoc, List.mem_filter]

lemma flightIdField_of_none {t a f o d : Option String}
    (h : t = none ∨ a = none ∨ f = none ∨ o = none ∨ d = none) :
    flightIdField t a f o d = [] := by
  rcases h with h | h | h | h | h
  · subst h; cases a <;> cases f <;> cases o <;> cases d <;> rfl
  · subst h; cases t <;> cases f <;> cases o <;> cases d <;> rfl
  · subst h; cases t <;> cases a <;> cases o <;> cases d <;> rfl
  · subst h; cases t <;> cases a <;> cases f <;> cases d <;> rfl
  · subst h; cases t <;> cases a <;> cases f <;> cases o <;> rfl

lemma mem_condStrField {K : String} {X : Option String} {p : String × PyVal}
    (h : p ∈ condStrField K X) : p.1 = K := by
  unfold condStrField at h
  split at h
  · split at h
    · simp at h
    · simp at h
      simp [h]
  · simp at h

lemma transform_row_ok_eq {airports cancellations : String → Option String} {row : Row}
    {doc : RawDoc} (h : transform_row airports cancellations row = .ok doc) :
    doc = transformRowDoc airports cancellations row := by
  unfold transform_row at h
  split at h
  · simp at h
  · injection h with h
    exact h.symm

/-- C5: the document submitted for a row (the transformer output after the
caller's not-`None` filter) never contains an explicit null: every field is
present with a well-typed value or structurally absent, and the filter keeps
exactly the non-null fields of the raw transformer output.  In particular a
row whose only column is `Cancelled = ""` yields a document with no
`Cancelled` key. -/
theorem no_null_fields_spec :
    (∀ (airports cancellations : String → Option String) (row : Row) (doc : RawDoc),
      transform_row airports cancellations row = .ok doc →
      (∀ p ∈ filterDoc doc, p.2 ≠ .pyNone) ∧
      (∀ k v, (k, v) ∈ filterDoc doc ↔ ((k, v) ∈ doc ∧ v ≠ .pyNone))) ∧
    ("Cancelled" ∉ (filterDoc (transformRowDoc (fun _ => none) (fun _ => none)
        (fun k => if k = "Cancelled" then some "" else none))).map Prod.fst) ∧
    transform_row (fun _ => none) (fun _ => none)
        (fun k => if k = "Cancelled" then some "" else none) =
      .ok (transformRowDoc (fun _ => none) (fun _ => none)
        (fun k => if k = "Cancelled" then some "" else none)) := by
  refine ⟨?_, by decide, by rfl⟩
  intro airports cancellations row doc _
  exact ⟨fun p hp => (mem_filterDoc.mp hp).2, fun k v => mem_filterDoc⟩

/-- C5 witness: a concrete all-empty row transforms successfully and its
filtered document has no null-valued field. -/
theorem no_null_fields_spec_witness :
    (transform_row (fun _ => none) (fun _ => none) (fun _ => none) =
      .ok (transformRowDoc (fun _ => none) (fun _ => none) (fun _ => none))) ∧
    (∀ p ∈ filterDoc (transformRowDoc (fun _ => none) (fun _ => none) (fun _ => none)),
      p.2 ≠ .pyNone) := by
  refine ⟨by rfl, ?_⟩
  exact (no_null_fields_spec.1 (fun _ => none) (fun _ => none) (fun _ => none) _ (by rfl)).1

/-- C6: the synthetic `FlightID` is present in the submitted document if and
only if all five of timestamp, carrier code, flight number, origin and
destination are present after trimming, in which case it is exactly the five
values joined with `_` in that order; if any one is absent the field is
omitted entirely, never partially concatenated. -/
theorem flight_id_spec :
    ∀ (airports cancellations : String → Option String) (row : Row) (doc : RawDoc),
      transform_row airports cancellations row = .ok doc →
      (∀ ts ra fn o d : String,
        pyOr (present (row "@timestamp")) (present (row "FlightDate")) = some ts →
        present (row "Reporting_Airline") = some ra →
        present (row "Flight_Number_Reporting_Airline") = some fn →
        present (row "Origin") = some o →
        present (row "Dest") = some d →
        ("FlightID", PyVal.pyStr (ts ++ "_" ++ ra ++ "_" ++ fn ++ "_" ++ o ++ "_" ++ d))
          ∈ filterDoc doc) ∧
      ((pyOr (present (row "@timestamp")) (present (row "FlightDate")) = none ∨
        present (row "Reporting_Airline") = none ∨
        present (row "Flight_Number_Reporting_Airline") = none ∨
        present (row "Origin") = none ∨
        present (row "Dest") = none) →
        ∀ v, ("FlightID", v) ∉ filterDoc doc) := by
  intro airports cancellations row doc htr
  have hdoc := transform_row_ok_eq htr
  subst hdoc
  constructor
  · intro ts ra fn o d h1 h2 h3 h4 h5
    rw [mem_filterDoc]
    refine ⟨?_, by simp⟩
    simp only [transformRowDoc]
    rw [h1, h2, h3, h4, h5]
    simp [flightIdField, List.mem_append]
  · intro hnone v hvmem
    have hmem := (mem_filterDoc.mp hvmem).1
    simp only [transformRowDoc] at hmem
    rw [flightIdField_of_none hnone] at hmem
    simp only [List.nil_append, List.append_nil, List.mem_append] at hmem
    rcases hmem with ((((h | h) | h) | h) | h) | h
    · simp [Prod.mk.injEq] at h
    · simp [Prod.mk.injEq] at h
    · exact absurd (mem_condStrField h) (by simp)
    · simp [Prod.mk.injEq] at h
    · exact absurd (mem_condStrField h) (by simp)
    · exact absurd (mem_condStrField h) (by simp)

/-- C6 witness: a concrete row with all five identifier inputs yields the
joined `FlightID`, and one with no identifier inputs yields none. -/
theorem flight_id_spec_witness :
    (transform_row (fun _ => none) (fun _ => none)
        (fun k => if k = "FlightDate" then some "2024-03-05"
          else if k = "Reporting_Airline" then some "AA"
          else if k = "Flight_Number_Reporting_Airline" then some "100"
          else if k = "Origin" then some "JFK"
          else if k = "Dest" then some "LAX" else none) =
      .ok (transformRowDoc (fun _ => none) (fun _ => none)
        (fun k => if k = "FlightDate" then some "2024-03-05"
          else if k = "Reporting_Airline" then some "AA"
          else if k = "Flight_Number_Reporting_Airline" then some "100"
          else if k = "Origin" then some "JFK"
          else if k = "Dest" then some "LAX" else none))) ∧
    ("FlightID", PyVal.pyStr ("2024-03-05" ++ "_" ++ "AA" ++ "_" ++ "100" ++ "_" ++ "JFK"
        ++ "_" ++ "LAX")) ∈
      filterDoc (transformRowDoc (fun _ => none) (fun _ => none)
        (fun k => if k = "FlightDate" then some "2024-03-05"
          else if k = "Reporting_Airline" then some "AA"
          else if k = "Flight_Number_Reporting_Airline" then some "100"
          else if k = "Origin" then some "JFK"
          else if k = "Dest" then some "LAX" else none)) := by
  refine ⟨by rfl, ?_⟩
  exact (flight_id_spec (fun _ => none) (fun _ => none)
      (fun k => if k = "FlightDate" then some "2024-03-05"
        else if k = "Reporting_Airline" then some "AA"
        else if k = "Flight_Number_Reporting_Airline" then some "100"
        else if k = "Origin" then some "JFK"
        else if k = "Dest" then some "LAX" else none) _ (by rfl)).1
    "2024-03-05" "AA" "100" "JFK" "LAX" (by decide) (by decide) (by decide) (by decide)
    (by decide)

end ImportFlights
